import Mathlib

/-!
Verification of the Scoring & Evidence-Consistency Engine of the
RAG_Evaluate_Part repository.

The Python source is embedded shallowly:

* machine floats are modelled as exact rationals (`ℚ`); every arithmetic
  expression in the scoring code is a sum/product/quotient of small
  decimals, so the rational value is the intended value of the float code;
* Python's `round(x, k)` is modelled as round-half-up on rationals
  (`round1`, `round2`).  CPython rounds binary floats half-to-even; the
  two agree everywhere except at exact decimal ties, which play no role in
  the statements below;
* Python dicts that are only probed with `.get(key, default)` are modelled
  as structures (a missing key is folded into the default), and dicts whose
  truthiness is tested (`if not d`) are modelled as `Option`;
* `list(set(xs))` produces an arbitrarily ordered duplicate-free list; it is
  modelled by `List.dedup`, and every downstream use is order-insensitive
  (membership and length only);
* Python's substring test `a in b` on strings is modelled by `pyIn`.

Sources embedded: `src/evaluator.py` (class Evaluator),
`workflows/rerun_with_rag.py` (evidence filtering, organ accuracy,
location metrics, baseline/RAG comparison, score report classification)
and `final_result/smart_api_analyzer.py` (validity gate and aggregation).
-/

namespace RAGEval

/-! ## Generic helpers -/

/-- Prefix test over character lists: `listPre pat s` holds when `pat`
is a prefix of `s`. -/
def listPre : List Char → List Char → Bool
  | [], _ => true
  | _ :: _, [] => false
  | a :: pa, b :: sb => a = b && listPre pa sb

/-- Contiguous-run test over character lists: `listSub pat s` holds when
`pat` occurs inside `s`. -/
def listSub (pat : List Char) : List Char → Bool
  | [] => listPre pat []
  | b :: t => listPre pat (b :: t) || listSub pat t

/-- Python's substring test `sub in big` on strings. -/
def pyIn (sub big : String) : Bool := listSub sub.toList big.toList

/-- Python's `str.lower()`, modelled character-wise (the organ names and
medical terms compared in the source are ASCII, where `Char.toLower`
agrees with Python's lowering). -/
def pyLower (s : String) : String := ⟨s.data.map Char.toLower⟩

/-- Python `round(x, 1)` modelled on exact rationals (round half up). -/
def round1 (q : ℚ) : ℚ := (⌊q * 10 + 1/2⌋ : ℚ) / 10

/-- Python `round(x, 2)` modelled on exact rationals (round half up). -/
def round2 (q : ℚ) : ℚ := (⌊q * 100 + 1/2⌋ : ℚ) / 100

/-- Duplicate removal that keeps the first occurrence of every element,
skipping anything in `seen`; models the first-seen iteration order of a
Python dict used as an ordered key set. -/
def seenDedup (seen : List String) : List String → List String
  | [] => []
  | a :: l => if a ∈ seen then seenDedup seen l else a :: seenDedup (a :: seen) l

/-- First-occurrence deduplication (first-seen order). -/
def firstDedup (l : List String) : List String := seenDedup [] l

/-! ## `src/evaluator.py` — class `Evaluator`

The evaluator receives the model's predicted anatomical locations
(`actual_locations`) and the flattened expert ground truth
(`expected_locations`).  `evaluate_single_response` deduplicates the
expected list (`list(set(...))`), checks the degenerate cases, computes the
three components and returns them on a 0–100 scale rounded to one decimal.
The `detailed_analysis` / `'API调用失败'` strings and the surrounding
response-field probing are I/O plumbing and are not modelled; the scoring
core below starts from the two extracted location lists. -/

/-- Embeds `Evaluator._calculate_precision`. -/
def calculate_precision (actual_locations expected_locations : List String) : ℚ :=
  if actual_locations = [] then 0
  else
    ((actual_locations.filter (fun loc => loc ∈ expected_locations)).length : ℚ) /
      (actual_locations.length : ℚ)

/-- Embeds `Evaluator._calculate_recall`. -/
def calculate_recall (actual_locations expected_locations : List String) : ℚ :=
  if expected_locations = [] then 0
  else
    ((actual_locations.filter (fun loc => loc ∈ expected_locations)).length : ℚ) /
      (expected_locations.length : ℚ)

/-- Embeds `Evaluator._calculate_overgeneration_penalty`. -/
def calculate_overgeneration_penalty
    (actual_locations expected_locations : List String) : ℚ :=
  if expected_locations = [] then 0
  else
    let r : ℚ := (actual_locations.length : ℚ) / (expected_locations.length : ℚ)
    if r ≤ 1 then 1
    else if r ≤ 2 then 1 - (r - 1) * (1/2)
    else if r ≤ 3 then 1/2 - (r - 2) * (1/2)
    else 0

/-- Result record of `Evaluator.evaluate_single_response`
(`detailed_analysis`, a formatted percent string, is not modelled).
The source key `recall` is rendered `recall_score` because `recall` is a
reserved word in this development's proof library. -/
structure EvalResult where
  overall_score : ℚ
  precision : ℚ
  recall_score : ℚ
  overgeneration_penalty : ℚ
  deriving DecidableEq

/-- Scoring core of `Evaluator.evaluate_single_response`: the expected list
is deduplicated, the empty cases return the zero record, otherwise the
three components are combined with weights 0.4/0.4/0.2 and reported on a
0–100 scale rounded to one decimal (`round(x * 100, 1)` resp.
`round(overall_score, 1)`). -/
def evaluate_single_core (actual_locations expectedRaw : List String) : EvalResult :=
  let expected_locations := expectedRaw.dedup
  if expected_locations = [] ∨ actual_locations = [] then
    { overall_score := 0, precision := 0, recall_score := 0, overgeneration_penalty := 0 }
  else
    let p := calculate_precision actual_locations expected_locations
    let r := calculate_recall actual_locations expected_locations
    let pen := calculate_overgeneration_penalty actual_locations expected_locations
    let overall := (p * (0.4 : ℚ) + r * (0.4 : ℚ) + pen * (0.2 : ℚ)) * 100
    { overall_score := round1 overall
      precision := round1 (p * 100)
      recall_score := round1 (r * 100)
      overgeneration_penalty := round1 (pen * 100) }

/-! ## `workflows/rerun_with_rag.py` — evidence consistency

An evidence unit is one retrieved reference: its `u_unit` carries the free
text `d_diagnosis` and an optional organ annotation `o_organ`
(`{organName, anatomicalLocations}`).  In the source the units are spread
over the values of the retrieval-result dict; iterating that dict visits
every unit once, so the engine is embedded over the flattened unit list.
An `o_organ` that is absent or an empty dict (both falsy in Python) is
`none`; a present dict is `some` (a missing `organName` key defaults to
`""`, a missing location list to `[]`). -/

structure OrganInfo where
  organName : String
  anatomicalLocations : List String
  deriving DecidableEq

structure EvidenceUnit where
  d_diagnosis : String
  o_organ : Option OrganInfo
  deriving DecidableEq

/-- The fixed lexicon test in `_evaluate_rag_quality`:
`any(medical_term in text.lower() for medical_term in [...])`. -/
def hasMedicalTerm (text : String) : Bool :=
  (["diagnosis", "condition", "disease", "syndrome", "disorder"].any
    fun medical_term => pyIn medical_term (pyLower text))

/-- Per-unit contribution accumulated into `quality_score` by the loop of
`_evaluate_rag_quality` (+0.3 long text, +0.2 organ present, +0.2 organ
with locations, +0.1 lexicon term). -/
def unitQuality (u : EvidenceUnit) : ℚ :=
  (if u.d_diagnosis.length > 30 then (0.3 : ℚ) else 0) +
  (match u.o_organ with
   | some o => (0.2 : ℚ) + (if o.anatomicalLocations ≠ [] then (0.2 : ℚ) else 0)
   | none => 0) +
  (if hasMedicalTerm u.d_diagnosis then (0.1 : ℚ) else 0)

/-- Organ names collected into `all_organs` (only non-empty names of
present organ dicts). -/
def allOrganNames (units : List EvidenceUnit) : List String :=
  units.filterMap fun u =>
    u.o_organ.bind fun o => if o.organName = "" then none else some o.organName

/-- Locations collected into `all_locations` (the source guards the extend
with `if locations:`, which is the identity on an empty list). -/
def allLocations (units : List EvidenceUnit) : List String :=
  units.flatMap fun u =>
    match u.o_organ with
    | some o => o.anatomicalLocations
    | none => []

/-- Embeds `RAGWorkflow._evaluate_rag_quality`, returning
`(trust score, "; "-joined quality indicators)`.  An empty retrieval dict
hits the early `"无检索结果"` return; a non-empty dict with zero units takes
the `total_refs == 0` branch and returns the same score `0.0` (rationale
`"无有效结果"`) — under the flattened-list embedding both correspond to the
empty unit list, rendered here as the early return. -/
def evaluate_rag_quality (units : List EvidenceUnit) : ℚ × String :=
  if units = [] then (0, "无检索结果")
  else
    let total_refs : ℕ := units.length
    let quality_score : ℚ := units.foldl (fun q u => q + unitQuality u) 0
    let all_organs := allOrganNames units
    let all_locations := allLocations units
    let avg_quality := quality_score / (total_refs : ℚ)
    let unique_organs : ℕ := all_organs.dedup.length
    let unique_locations : ℕ := all_locations.dedup.length
    let consistency_penalty : ℚ :=
      (if unique_organs > 1 then (0.4 : ℚ) else 0) +
      (if unique_locations > 5 then (0.2 : ℚ) else 0)
    let penalized := max 0 (avg_quality - consistency_penalty)
    let indicators : List String :=
      [s!"检索到{total_refs}条结果"] ++
      (if unique_organs > 1 then [s!"器官信息不一致({unique_organs}种器官)"] else []) ++
      (if unique_locations > 5 then ["解剖位置信息过于分散"] else []) ++
      [if penalized > (0.6 : ℚ) then "质量较高"
       else if penalized > (0.3 : ℚ) then "质量中等"
       else "质量较低"] ++
      (if consistency_penalty > 0 then
        [if consistency_penalty ≥ (0.4 : ℚ) then "信息冲突严重" else "信息轻微冲突"]
       else [])
    (min penalized 1, String.intercalate "; " indicators)

/-- One element of the `all_info` list of `_filter_consistent_rag_info`:
the projection `{'text': ..., 'organ': ...}` of an organ-bearing unit. -/
structure InfoItem where
  text : String
  organ : OrganInfo
  deriving DecidableEq

/-- Models `organ_counts[name] = organ_counts.get(name, 0) + 1` on an
insertion-ordered association list (a Python dict iterated in insertion
order). -/
def bump : List (String × ℕ) → String → List (String × ℕ)
  | [], n => [(n, 1)]
  | (k, c) :: rest, n => if k = n then (k, c + 1) :: rest else (k, c) :: bump rest n

/-- The collection loop of `_filter_consistent_rag_info`: append each
organ-bearing unit (non-empty `organName`) to `all_info` and count its
organ name. -/
def collectInfo (units : List EvidenceUnit) : List InfoItem × List (String × ℕ) :=
  units.foldl
    (fun acc u =>
      match u.o_organ with
      | some o =>
          if o.organName = "" then acc
          else (acc.1 ++ [⟨u.d_diagnosis, o⟩], bump acc.2 o.organName)
      | none => acc)
    ([], [])

/-- Models `max(organ_counts, key=organ_counts.get)`: scan the dict in insertion
order, replacing the running best only on a strictly larger count (Python's
`max` keeps the earliest maximum). -/
def maxCountKey (organ_counts : List (String × ℕ)) : Option String :=
  (organ_counts.foldl
    (fun best p =>
      match best with
      | none => some p
      | some b => if p.2 > b.2 then some p else some b)
    none).map Prod.fst

/-- Embeds `RAGWorkflow._filter_consistent_rag_info`.  The source computes
`most_common_organ` before testing `len(organ_counts) == 1`; `Option.elim`
renders the (unreachable for a non-empty dict) `none` case as `[]`. -/
def filter_consistent_rag_info (units : List EvidenceUnit) : List InfoItem :=
  let all_info := (collectInfo units).1
  let organ_counts := (collectInfo units).2
  if organ_counts = [] then []
  else
    match maxCountKey organ_counts with
    | none => []
    | some most_common_organ =>
        if organ_counts.length = 1 then all_info
        else all_info.filter fun info => info.organ.organName = most_common_organ

/-- Organ-accuracy verdict of `_calculate_organ_accuracy`
(`description`, a formatted string, is kept verbatim for the two constant
cases used by the analyzer and summarised for the others). -/
structure OrganAccuracy where
  category : String
  score : ℚ
  deriving DecidableEq

/-- Embeds `RAGWorkflow._calculate_organ_accuracy` (category and score; the
formatted `description` strings are handled where needed by the analyzer
embedding). -/
def calculate_organ_accuracy (predicted_organ : String) (expected_organs : List String) :
    OrganAccuracy :=
  if expected_organs = [] then { category := "unknown", score := 0 }
  else if predicted_organ = "" then { category := "incorrect", score := 0 }
  else if predicted_organ ∈ expected_organs then { category := "exact_match", score := 1 }
  else
    match expected_organs.find? (fun expected_organ =>
      pyIn (pyLower predicted_organ) (pyLower expected_organ) ||
      pyIn (pyLower expected_organ) (pyLower predicted_organ)) with
    | some _ => { category := "partial_match", score := (0.6 : ℚ) }
    | none => { category := "incorrect", score := 0 }

/-- Metrics record of `_calculate_location_metrics`; all five fields are on
a 0–100 scale rounded to one decimal.  Source key `recall` is rendered
`recall_pct` (`recall` is reserved here), `f1_score` and the rest keep
their names. -/
structure LocationMetrics where
  precision : ℚ
  recall_pct : ℚ
  f1_score : ℚ
  overgeneration_penalty : ℚ
  overall_score : ℚ
  deriving DecidableEq

/-- Embeds `RAGWorkflow._calculate_location_metrics`.  Note the over-generation
penalty here is `max(0, 1 - max(0, |pred| - |exp|) / max(|exp|, 1))`, not
the Evaluator's piecewise-linear function; `max 0 (p - e)` on Python ints
is natural-number truncated subtraction. -/
def calculate_location_metrics (predicted_locations expected_locations : List String) :
    LocationMetrics :=
  if expected_locations = [] then
    { precision := 0, recall_pct := 0, f1_score := 0
      overgeneration_penalty := 0, overall_score := 0 }
  else if predicted_locations = [] then
    { precision := 0, recall_pct := 0, f1_score := 0
      overgeneration_penalty := 0, overall_score := 0 }
  else
    let correct_count :=
      (predicted_locations.filter (fun loc => loc ∈ expected_locations)).length
    let p : ℚ := (correct_count : ℚ) / (predicted_locations.length : ℚ)
    let r : ℚ := (correct_count : ℚ) / (expected_locations.length : ℚ)
    let f1 : ℚ := if p + r > 0 then 2 * (p * r) / (p + r) else 0
    let over_generation : ℕ := predicted_locations.length - expected_locations.length
    let pen : ℚ := max 0 (1 - (over_generation : ℚ) / (max expected_locations.length 1 : ℕ))
    let overall : ℚ := (p * (0.4 : ℚ) + r * (0.4 : ℚ) + pen * (0.2 : ℚ)) * 100
    { precision := round1 (p * 100)
      recall_pct := round1 (r * 100)
      f1_score := round1 (f1 * 100)
      overgeneration_penalty := round1 (pen * 100)
      overall_score := round1 overall }

/-- Per-API comparison record built by `_compare_responses` (the fields the
claims speak about; the echoed inputs and formatted strings are omitted).
`metrics_improvement` is inlined as the four `*_improvement` fields. -/
structure ComparisonResult where
  baseline_organ_accuracy : OrganAccuracy
  rag_organ_accuracy : OrganAccuracy
  organ_accuracy_improved : Bool
  baseline_metrics : LocationMetrics
  rag_metrics : LocationMetrics
  precision_improvement : ℚ
  recall_improvement : ℚ
  f1_improvement : ℚ
  overall_improvement : ℚ
  deriving DecidableEq

/-- One expert-annotated expected unit (`organName`, `anatomicalLocations`). -/
structure ExpectedResult where
  organName : String
  anatomicalLocations : List String

/-- Expected-location preparation in `_compare_responses`:
flatten then `list(set(...))`. -/
def expectedLocationsOf (expected_results : List ExpectedResult) : List String :=
  (expected_results.flatMap fun er => er.anatomicalLocations).dedup

/-- Expected-organ preparation in `_compare_responses`: collect non-empty
`organName`s then `list(set(...))`. -/
def expectedOrgansOf (expected_results : List ExpectedResult) : List String :=
  (expected_results.filterMap fun er =>
    if er.organName = "" then none else some er.organName).dedup

/-- The per-API body of `RAGWorkflow._compare_responses`. -/
def compare_responses (baseline_organ rag_organ : String)
    (baseline_locations rag_locations : List String)
    (expected_results : List ExpectedResult) : ComparisonResult :=
  let expected_locations := expectedLocationsOf expected_results
  let expected_organs := expectedOrgansOf expected_results
  let baseline_organ_accuracy := calculate_organ_accuracy baseline_organ expected_organs
  let rag_organ_accuracy := calculate_organ_accuracy rag_organ expected_organs
  let baseline_metrics := calculate_location_metrics baseline_locations expected_locations
  let rag_metrics := calculate_location_metrics rag_locations expected_locations
  { baseline_organ_accuracy := baseline_organ_accuracy
    rag_organ_accuracy := rag_organ_accuracy
    organ_accuracy_improved :=
      rag_organ_accuracy.category == "exact_match" &&
        !(baseline_organ_accuracy.category == "exact_match")
    baseline_metrics := baseline_metrics
    rag_metrics := rag_metrics
    precision_improvement := rag_metrics.precision - baseline_metrics.precision
    recall_improvement := rag_metrics.recall_pct - baseline_metrics.recall_pct
    f1_improvement := rag_metrics.f1_score - baseline_metrics.f1_score
    overall_improvement := rag_metrics.overall_score - baseline_metrics.overall_score }

/-- The three-way branch of `_generate_score_report` that sorts each
sample's `overall_improvement` into `positive_effects` / `negative_effects`
/ `no_effects` — the verdict classification the spec names
improved/declined/unchanged. -/
def classify_effect (overall_improvement : ℚ) : String :=
  if overall_improvement > 0 then "improved"
  else if overall_improvement < 0 then "declined"
  else "unchanged"

/-! ## `final_result/smart_api_analyzer.py` — validity gate and aggregation

One `(api, sample)` record as probed by `is_api_call_valid` /
`_process_api_scores`.  `baseline_metrics` / `rag_metrics` dicts whose
truthiness is tested (`if not baseline_metrics`) are `Option`; inside a
present dict, `get("overall_score", 0)` is folded into the field.  The
organ-accuracy dicts are only probed for `get("description", "")`, so only
that string is kept (absent dict ≡ `""`). -/

structure ScoreMetrics where
  overall_score : ℚ
  deriving DecidableEq

structure ApiData where
  baseline_organ : String
  rag_organ : String
  baseline_locations : List String
  rag_locations : List String
  baseline_metrics : Option ScoreMetrics
  rag_metrics : Option ScoreMetrics
  baseline_organ_accuracy_description : String
  rag_organ_accuracy_description : String
  deriving DecidableEq

/-- Models `metrics.get("overall_score", 0)` through an optional metrics dict. -/
def metricsScore : Option ScoreMetrics → ℚ
  | none => 0
  | some m => m.overall_score

/-- Embeds `SmartAPIScoreAnalyzer.is_api_call_valid`, returning `(valid, reason)`. -/
def is_api_call_valid (d : ApiData) : Bool × String :=
  if d.baseline_organ = "" ∨ d.rag_organ = "" then
    (false, "器官名称为空")
  else if d.baseline_locations = [] ∧ d.rag_locations = [] then
    (false, "位置数组为空")
  else if d.baseline_metrics = none ∨ d.rag_metrics = none then
    (false, "metrics数据缺失")
  else if metricsScore d.baseline_metrics = 0 ∧ metricsScore d.rag_metrics = 0 then
    (false, "所有分数都为0")
  else if d.baseline_organ_accuracy_description = "未识别出任何器官" ∧
      d.rag_organ_accuracy_description = "未识别出任何器官" then
    (false, "完全未识别出器官")
  else
    (true, "有效")

/-- Per-API accumulator `self.api_scores[api]` of `SmartAPIScoreAnalyzer`. -/
structure ApiScores where
  baseline_scores : List ℚ
  rag_scores : List ℚ
  improvements : List ℚ
  declines : List ℚ
  no_change : List ℚ
  valid_reports : List String
  invalid_reports : List String
  empty_results : List String
  zero_scores : List String
  deriving DecidableEq

/-- The empty accumulator every API starts from. -/
def ApiScores.init : ApiScores :=
  { baseline_scores := [], rag_scores := [], improvements := [], declines := []
    no_change := [], valid_reports := [], invalid_reports := []
    empty_results := [], zero_scores := [] }

/-- Embeds `SmartAPIScoreAnalyzer._process_api_scores` for one sample of one API
(the classification of invalid reasons uses Python's substring test
`"..." in reason`). -/
def process_api_scores (s : ApiScores) (d : ApiData) (report_id : String) : ApiScores :=
  let vr := is_api_call_valid d
  if vr.1 = false then
    let s1 := { s with invalid_reports := s.invalid_reports ++ [report_id] }
    if pyIn "器官名称为空" vr.2 ∨ pyIn "位置数组为空" vr.2 then
      { s1 with empty_results := s1.empty_results ++ [report_id] }
    else if pyIn "所有分数都为0" vr.2 then
      { s1 with zero_scores := s1.zero_scores ++ [report_id] }
    else s1
  else
    let baseline_score := metricsScore d.baseline_metrics
    let rag_score := metricsScore d.rag_metrics
    let s1 := { s with
      baseline_scores := s.baseline_scores ++ [baseline_score]
      rag_scores := s.rag_scores ++ [rag_score]
      valid_reports := s.valid_reports ++ [report_id] }
    if rag_score > baseline_score then
      { s1 with improvements := s1.improvements ++ [rag_score - baseline_score] }
    else if rag_score < baseline_score then
      { s1 with declines := s1.declines ++ [baseline_score - rag_score] }
    else
      { s1 with no_change := s1.no_change ++ [0] }

/-- The per-API entry written into `self.stats` by `calculate_statistics`
(just the numeric parts the claims concern; `total_scores` echoes the input
lists and `data_completeness` is a formatted string).  Source keys
`improvement_ratio` / `decline_ratio` / `no_change_ratio` are rendered with
the suffix `_rate` (the source spelling collides with a reserved suffix in
this development). -/
structure ApiStats where
  s_numbers : ℕ
  valid_reports_count : ℕ
  invalid_reports_count : ℕ
  empty_results_count : ℕ
  zero_scores_count : ℕ
  baseline_avg : ℚ
  rag_avg : ℚ
  improvement_rate : ℚ
  decline_rate : ℚ
  no_change_rate : ℚ
  improvement_count : ℕ
  decline_count : ℕ
  no_change_count : ℕ
  deriving DecidableEq

/-- Embeds `SmartAPIScoreAnalyzer.calculate_statistics` for one API: on
`if not baseline_scores: continue` the API receives no stats entry at all
(`none`); otherwise means are `statistics.mean` rounded to two decimals and
ratios are `round(count / total * 100, 2)` (the `if total_symptoms > 0`
guard is vacuous in this branch). -/
def calculate_statistics (s : ApiScores) : Option ApiStats :=
  if s.baseline_scores = [] then none
  else
    let total_symptoms := s.baseline_scores.length
    some
      { s_numbers := total_symptoms
        valid_reports_count := s.valid_reports.dedup.length
        invalid_reports_count := s.invalid_reports.dedup.length
        empty_results_count := s.empty_results.dedup.length
        zero_scores_count := s.zero_scores.dedup.length
        baseline_avg := round2 (s.baseline_scores.sum / (total_symptoms : ℚ))
        rag_avg := round2 (s.rag_scores.sum / (s.rag_scores.length : ℚ))
        improvement_rate :=
          round2 ((s.improvements.length : ℚ) / (total_symptoms : ℚ) * 100)
        decline_rate := round2 ((s.declines.length : ℚ) / (total_symptoms : ℚ) * 100)
        no_change_rate := round2 ((s.no_change.length : ℚ) / (total_symptoms : ℚ) * 100)
        improvement_count := s.improvements.length
        decline_count := s.declines.length
        no_change_count := s.no_change.length }

/-- Runs `calculate_statistics` over the whole `api → scores` mapping: exactly
the APIs with a non-empty `baseline_scores` list receive an entry. -/
def calcAllStats (data : List (String × ApiScores)) : List (String × ApiStats) :=
  data.filterMap fun p => (calculate_statistics p.2).map fun st => (p.1, st)

/-- Python's `max(items, key=f)` over an association list: scan left to
right, replacing the best only on a strictly larger key (ties keep the
earlier item); `none` on the empty list (the source guards with
`if self.stats else None`). -/
def maxByStat (f : ApiStats → ℚ) (stats : List (String × ApiStats)) :
    Option (String × ApiStats) :=
  stats.foldl
    (fun best p =>
      match best with
      | none => some p
      | some b => if f p.2 > f b.2 then some p else some b)
    none

/-- Embeds `generate_report`'s `best_improvement_api` rollup. -/
def best_improvement_api (data : List (String × ApiScores)) : Option (String × ApiStats) :=
  maxByStat (fun st => st.improvement_rate) (calcAllStats data)

/-- Embeds `generate_report`'s `worst_decline_api` rollup. -/
def worst_decline_api (data : List (String × ApiScores)) : Option (String × ApiStats) :=
  maxByStat (fun st => st.decline_rate) (calcAllStats data)

/-- Embeds `generate_report`'s `most_stable_api` rollup. -/
def most_stable_api (data : List (String × ApiScores)) : Option (String × ApiStats) :=
  maxByStat (fun st => st.no_change_rate) (calcAllStats data)

/-! ## Claim-side specification functions

These definitions follow the words of the spec/claims (not the source) and
are compared against the embedded code. -/

/-- C2's piecewise-linear over-generation penalty, as a function of
`ratio = |predicted| / |expected|`, exactly as the claim words it. -/
def claimPiecewise (r : ℚ) : ℚ :=
  if r ≤ 1 then 1
  else if r ≤ 2 then 1 - (0.5 : ℚ) * (r - 1)
  else if r ≤ 3 then (0.5 : ℚ) - (0.5 : ℚ) * (r - 2)
  else 0

/-- C1's validity gate as the claim states it: excluded iff at least one of
the claim's FOUR degeneracy conditions holds (an overall score is read with
default `0` when its metrics dict is absent, as the analyzer does). -/
def claimDegenerateFour (d : ApiData) : Prop :=
  d.baseline_organ = "" ∨ d.rag_organ = "" ∨
  (d.baseline_locations = [] ∧ d.rag_locations = []) ∨
  (metricsScore d.baseline_metrics = 0 ∧ metricsScore d.rag_metrics = 0) ∨
  (d.baseline_organ_accuracy_description = "未识别出任何器官" ∧
    d.rag_organ_accuracy_description = "未识别出任何器官")

instance (d : ApiData) : Decidable (claimDegenerateFour d) := by
  unfold claimDegenerateFour; infer_instance

/-- C1 amended: the gate additionally excludes a sample whose baseline or
augmented metrics dict is missing/empty. -/
def claimDegenerateFive (d : ApiData) : Prop :=
  claimDegenerateFour d ∨ d.baseline_metrics = none ∨ d.rag_metrics = none

instance (d : ApiData) : Decidable (claimDegenerateFive d) := by
  unfold claimDegenerateFive; infer_instance

/-- C4's per-unit quality increment, as the claim words it. -/
def claimIncrement (u : EvidenceUnit) : ℚ :=
  (if u.d_diagnosis.length > 30 then (0.3 : ℚ) else 0) +
  (if u.o_organ.isSome then (0.2 : ℚ) else 0) +
  (if (match u.o_organ with
       | some o => !o.anatomicalLocations.isEmpty
       | none => false : Bool) then (0.2 : ℚ) else 0) +
  (if hasMedicalTerm u.d_diagnosis then (0.1 : ℚ) else 0)

/-- C4's trust score: increments averaged over all units, minus 0.4 for
organ disagreement and another 0.2 for more than five distinct locations,
clamped to `[0, 1]`; 0 on the empty list. -/
def claimTrustScore (units : List EvidenceUnit) : ℚ :=
  if units = [] then 0
  else
    let raw := (units.map claimIncrement).sum / (units.length : ℚ)
    let penalty : ℚ :=
      (if (allOrganNames units).dedup.length > 1 then (0.4 : ℚ) else 0) +
      (if (allLocations units).dedup.length > 5 then (0.2 : ℚ) else 0)
    min 1 (max 0 (raw - penalty))

/-- C5's plurality organ, as the claim words it: among the organ names in
first-seen order, the first one attaining the highest occurrence count. -/
def claimPlurality (names : List String) : Option String :=
  (firstDedup names).foldl
    (fun best k =>
      match best with
      | none => some k
      | some b => if names.count k > names.count b then some k else some b)
    none

/-- The organ-bearing units (non-empty organ name), projected to
`{text, organ}` in input order — what C5 amended says survives the
filtering. -/
def allInfoItems (units : List EvidenceUnit) : List InfoItem :=
  units.filterMap fun u =>
    u.o_organ.bind fun o =>
      if o.organName = "" then none else some ⟨u.d_diagnosis, o⟩

/-- C6's organ classification chain exactly as the claim states it (no
empty-prediction tier before the substring tier). -/
def claimOrganCategory (predicted_organ : String) (expected_organs : List String) : String :=
  if expected_organs = [] then "unknown"
  else if predicted_organ ∈ expected_organs then "exact_match"
  else if expected_organs.any (fun e =>
      pyIn (pyLower predicted_organ) (pyLower e) || pyIn (pyLower e) (pyLower predicted_organ)) then
    "partial_match"
  else "incorrect"

/-- C6 amended: the code rejects an empty predicted organ (class
`incorrect`) before the substring tier. -/
def amendedOrganCategory (predicted_organ : String) (expected_organs : List String) : String :=
  if expected_organs = [] then "unknown"
  else if predicted_organ = "" then "incorrect"
  else if predicted_organ ∈ expected_organs then "exact_match"
  else if expected_organs.any (fun e =>
      pyIn (pyLower predicted_organ) (pyLower e) || pyIn (pyLower e) (pyLower predicted_organ)) then
    "partial_match"
  else "incorrect"

/-- Score attached to each amended class (1.0 exact, 0.6 partial, 0 else). -/
def amendedOrganScore (predicted_organ : String) (expected_organs : List String) : ℚ :=
  if amendedOrganCategory predicted_organ expected_organs = "exact_match" then 1
  else if amendedOrganCategory predicted_organ expected_organs = "partial_match" then (0.6 : ℚ)
  else 0

/-- C7's raw (unscaled) precision of the rerun workflow's location
metrics, 0 on either degenerate input. -/
def rawPrecision (predicted expected : List String) : ℚ :=
  if expected = [] ∨ predicted = [] then 0
  else ((predicted.filter (fun loc => loc ∈ expected)).length : ℚ) / (predicted.length : ℚ)

/-- C7's raw (unscaled) recall of the rerun workflow's location metrics. -/
def rawRecall (predicted expected : List String) : ℚ :=
  if expected = [] ∨ predicted = [] then 0
  else ((predicted.filter (fun loc => loc ∈ expected)).length : ℚ) / (expected.length : ℚ)

/-- Harmonic-mean F1 of a precision/recall pair (0 when both vanish), as
the claim describes each side's F1. -/
def harmonicF1 (p r : ℚ) : ℚ := if p + r > 0 then 2 * (p * r) / (p + r) else 0

/-! ## Concrete sample data used by counterexamples and witnesses -/

/-- A sample whose only defect is a missing baseline metrics dict: organs
and a location are present, the augmented score is non-zero, and neither
rationale reads "no organ identified". -/
def sampleMissingMetrics : ApiData :=
  { baseline_organ := "Heart", rag_organ := "Heart"
    baseline_locations := ["Left Ventricle"], rag_locations := ["Left Ventricle"]
    baseline_metrics := none, rag_metrics := some { overall_score := 50 }
    baseline_organ_accuracy_description := "精确匹配期望器官: Heart"
    rag_organ_accuracy_description := "精确匹配期望器官: Heart" }

/-- A degenerate sample (both organ strings empty). -/
def sampleEmptyOrgan : ApiData :=
  { baseline_organ := "", rag_organ := ""
    baseline_locations := [], rag_locations := []
    baseline_metrics := none, rag_metrics := none
    baseline_organ_accuracy_description := "", rag_organ_accuracy_description := "" }

/-- A per-API accumulator holding exactly one valid sample
(baseline 50, augmented 60, one improvement). -/
def scoresOneValid : ApiScores :=
  { baseline_scores := [50], rag_scores := [60], improvements := [10]
    declines := [], no_change := [], valid_reports := ["r1"]
    invalid_reports := [], empty_results := [], zero_scores := [] }

/-- The statistics entry `calculate_statistics` produces for
`scoresOneValid`. -/
def statsOneValid : ApiStats :=
  { s_numbers := 1, valid_reports_count := 1, invalid_reports_count := 0
    empty_results_count := 0, zero_scores_count := 0
    baseline_avg := 50, rag_avg := 60
    improvement_rate := 100, decline_rate := 0, no_change_rate := 0
    improvement_count := 1, decline_count := 0, no_change_count := 0 }

/-- Two evidence units among which exactly one distinct organ name
("Heart") appears; the second unit carries no organ annotation. -/
def unitsHeartAndNone : List EvidenceUnit :=
  [{ d_diagnosis := "chest pain with radiation"
     o_organ := some { organName := "Heart", anatomicalLocations := [] } },
   { d_diagnosis := "no structured finding", o_organ := none }]

/-- A single evidence unit citing "Heart". -/
def unitsOneHeart : List EvidenceUnit :=
  [{ d_diagnosis := "aortic stenosis"
     o_organ := some { organName := "Heart", anatomicalLocations := ["Aortic Valve"] } }]

example : pyIn "liver" "my liver (hepar)" = true := by decide
example : pyIn "" "abc" = true := by decide
example : pyIn "xy" "abc" = false := by decide

/-! ## Helper lemmas -/

lemma listSub_nil_left (l : List Char) : listSub [] l = true := by
  induction l with
  | nil => rfl
  | cons b t ih => simp [listSub, listPre]

lemma pyIn_empty_left (s : String) : pyIn "" s = true := by
  simpa [pyIn] using listSub_nil_left s.toList

/-- A first-match branch over `find?` agrees with the `any` test. -/
lemma find?_branch_eq_any {α β : Type} (l : List α) (p : α → Bool) (A B : β) :
    (match l.find? p with | some _ => A | none => B) = if l.any p then A else B := by
  induction l with
  | nil => simp
  | cons a t ih =>
      by_cases h : p a
      · simp [List.find?, List.any, h]
      · simpa [List.find?, List.any, h] using ih

/-- The three middle pieces of the claimed piecewise penalty collapse to a
single clamped line. -/
lemma claimPiecewise_eq_clamp (r : ℚ) : claimPiecewise r = max 0 (min 1 (3/2 - r/2)) := by
  unfold claimPiecewise
  split_ifs with h1 h2 h3
  · have hm : min 1 (3/2 - r/2) = 1 := min_eq_left (by linarith)
    rw [hm]; norm_num
  · have hm : min 1 (3/2 - r/2) = 3/2 - r/2 := min_eq_right (by linarith)
    rw [hm, max_eq_right (by linarith)]; ring
  · have hm : min 1 (3/2 - r/2) = 3/2 - r/2 := min_eq_right (by linarith)
    rw [hm, max_eq_right (by linarith)]; ring
  · have hm : min 1 (3/2 - r/2) = 3/2 - r/2 := min_eq_right (by linarith)
    rw [hm, max_eq_left (by linarith)]

/-- The Evaluator's penalty chain is exactly the claimed piecewise function
of the length ratio (0 on an empty expected list). -/
lemma overgen_penalty_eq (a e : List String) :
    calculate_overgeneration_penalty a e =
      if e = [] then 0 else claimPiecewise ((a.length : ℚ) / (e.length : ℚ)) := by
  unfold calculate_overgeneration_penalty claimPiecewise
  by_cases he : e = []
  · simp [he]
  · simp only [he, if_false]
    split_ifs <;> ring

lemma claimPiecewise_bounds (r : ℚ) : 0 ≤ claimPiecewise r ∧ claimPiecewise r ≤ 1 := by
  rw [claimPiecewise_eq_clamp]
  constructor
  · exact le_max_left _ _
  · exact max_le (by norm_num) (min_le_left _ _)

lemma round1_zero : round1 0 = 0 := by norm_num [round1]

lemma round1_bounds {x : ℚ} (h0 : 0 ≤ x) (h100 : x ≤ 100) :
    0 ≤ round1 x ∧ round1 x ≤ 100 := by
  unfold round1
  constructor
  · have h : (0 : ℤ) ≤ ⌊x * 10 + 1/2⌋ := Int.floor_nonneg.mpr (by linarith)
    have h2 : (0 : ℚ) ≤ (⌊x * 10 + 1/2⌋ : ℚ) := by exact_mod_cast h
    linarith
  · have h : ⌊x * 10 + 1/2⌋ ≤ ⌊(2001 : ℚ)/2⌋ := Int.floor_le_floor (by linarith)
    have h3 : ⌊(2001 : ℚ)/2⌋ = 1000 := by norm_num
    have h2 : (⌊x * 10 + 1/2⌋ : ℚ) ≤ 1000 := by
      rw [h3] at h; exact_mod_cast h
    linarith

example : pyIn "disorder" "suspected metabolic disorder" = true := by decide

/-! ## Claim C10 -/

/-- C10: whenever the expected organ list is non-empty and the predicted
organ string is empty, `_calculate_organ_accuracy` returns class
`incorrect` with score 0.0 — the empty prediction is rejected before the
substring tier, even though the empty string is a (case-insensitive)
substring of every expected organ. -/
theorem C10_empty_prediction_incorrect (predicted_organ : String)
    (expected_organs : List String) (hne : expected_organs ≠ [])
    (hempty : predicted_organ = "") :
    (calculate_organ_accuracy predicted_organ expected_organs).category = "incorrect" ∧
    (calculate_organ_accuracy predicted_organ expected_organs).score = 0 ∧
    ∀ e ∈ expected_organs, pyIn (pyLower predicted_organ) (pyLower e) = true := by
  subst hempty
  refine ⟨?_, ?_, ?_⟩
  · simp [calculate_organ_accuracy, hne]
  · simp [calculate_organ_accuracy, hne]
  · intro e _
    have h : pyLower "" = "" := by decide
    rw [h]
    exact pyIn_empty_left _

/-- Witness for C10 at the concrete pair `("", ["Liver"])`. -/
theorem C10_empty_prediction_incorrect_witness :
    (calculate_organ_accuracy "" ["Liver"]).category = "incorrect" ∧
    (calculate_organ_accuracy "" ["Liver"]).score = 0 ∧
    ∀ e ∈ (["Liver"] : List String), pyIn (pyLower "") (pyLower e) = true :=
  C10_empty_prediction_incorrect "" ["Liver"] (by decide) rfl

/-! ## Claim C6 -/

/-- C6 as stated is false on an empty predicted organ: the code classifies
`("", ["Liver"])` as `incorrect`, while the claim's chain (exact, then
case-insensitive substring, then incorrect) classifies it `partial_match`
because the empty string is a substring of `"liver"`. -/
theorem C6_counterexample :
    (calculate_organ_accuracy "" ["Liver"]).category = "incorrect" ∧
    claimOrganCategory "" ["Liver"] = "partial_match" ∧
    (calculate_organ_accuracy "" ["Liver"]).category ≠ claimOrganCategory "" ["Liver"] := by
  refine ⟨?_, ?_, ?_⟩ <;> decide

/-- C6 amended: the classification is `unknown` on an empty expected list,
`incorrect` on an empty predicted organ, `exact_match` (1.0) on exact
membership, `partial_match` (0.6) on a case-insensitive substring in
either direction, `incorrect` (0.0) otherwise. -/
theorem C6_organ_classification (predicted_organ : String) (expected_organs : List String) :
    (calculate_organ_accuracy predicted_organ expected_organs).category =
      amendedOrganCategory predicted_organ expected_organs ∧
    (calculate_organ_accuracy predicted_organ expected_organs).score =
      amendedOrganScore predicted_organ expected_organs := by
  by_cases h1 : expected_organs = []
  · simp [calculate_organ_accuracy, amendedOrganCategory, amendedOrganScore, h1]
  by_cases h2 : predicted_organ = ""
  · simp [calculate_organ_accuracy, amendedOrganCategory, amendedOrganScore, h1, h2]
  by_cases h3 : predicted_organ ∈ expected_organs
  · simp [calculate_organ_accuracy, amendedOrganCategory, amendedOrganScore, h1, h2, h3]
  · cases hf : expected_organs.find? (fun e =>
        pyIn (pyLower predicted_organ) (pyLower e) ||
          pyIn (pyLower e) (pyLower predicted_organ)) with
    | some v =>
        have hpv := List.find?_some hf
        have hmv := List.mem_of_find?_eq_some hf
        have hany : (expected_organs.any fun e =>
            pyIn (pyLower predicted_organ) (pyLower e) ||
              pyIn (pyLower e) (pyLower predicted_organ)) = true :=
          List.any_eq_true.mpr ⟨v, hmv, hpv⟩
        simp [calculate_organ_accuracy, amendedOrganCategory, amendedOrganScore,
          h1, h2, h3, hf, hany]
    | none =>
        have hany : (expected_organs.any fun e =>
            pyIn (pyLower predicted_organ) (pyLower e) ||
              pyIn (pyLower e) (pyLower predicted_organ)) = false := by
          rw [Bool.eq_false_iff]
          intro hcon
          obtain ⟨x, hx, hpx⟩ := List.any_eq_true.mp hcon
          have := List.find?_eq_none.mp hf x hx
          simp [hpx] at this
        simp [calculate_organ_accuracy, amendedOrganCategory, amendedOrganScore,
          h1, h2, h3, hf, hany]

/-! ## Claim C2 -/

/-- C2 as stated is false for the rerun workflow's
`_calculate_location_metrics`: at predicted size 3 vs expected size 2
(ratio 1.5) the claimed piecewise penalty is 0.75 (75 on the returned
percent scale), but the code stores 50. -/
theorem C2_counterexample :
    (calculate_location_metrics ["a", "b", "c"] ["a", "b"]).overgeneration_penalty = 50 ∧
    round1 (100 * claimPiecewise ((3 : ℚ) / 2)) = 75 ∧
    (calculate_location_metrics ["a", "b", "c"] ["a", "b"]).overgeneration_penalty ≠
      round1 (100 * claimPiecewise ((3 : ℚ) / 2)) := by
  refine ⟨?_, ?_, ?_⟩ <;>
    · simp [calculate_location_metrics, claimPiecewise, round1]
      norm_num

/-- C2 amended: the piecewise-linear law (with its monotonicity and its
vanishing from ratio 3 on, and penalty 0 on an empty expected list) holds
for the Evaluator's `_calculate_overgeneration_penalty`; the rerun
workflow's `_calculate_location_metrics` instead uses the steeper linear
penalty `max(0, 1 − (|pred|−|exp|)/|exp|)`, already 0 once
`|pred| ≥ 2·|exp|`. -/
theorem C2_overgeneration_policy :
    (∀ a e : List String,
      calculate_overgeneration_penalty a e =
        if e = [] then 0 else claimPiecewise ((a.length : ℚ) / (e.length : ℚ))) ∧
    (∀ (e a a' : List String), e ≠ [] → a.length ≤ a'.length →
      calculate_overgeneration_penalty a' e ≤ calculate_overgeneration_penalty a e) ∧
    (∀ (e a : List String), e ≠ [] → 3 * e.length ≤ a.length →
      calculate_overgeneration_penalty a e = 0) ∧
    (∀ (p e : List String), e ≠ [] → p ≠ [] → 2 * e.length ≤ p.length →
      (calculate_location_metrics p e).overgeneration_penalty = 0) := by
  refine ⟨fun a e => overgen_penalty_eq a e, ?_, ?_, ?_⟩
  · intro e a a' he hlen
    have hc : (0 : ℚ) < (e.length : ℚ) := by
      exact_mod_cast List.length_pos.mpr he
    have hr : (a.length : ℚ) / (e.length : ℚ) ≤ (a'.length : ℚ) / (e.length : ℚ) := by
      rw [div_le_div_iff hc hc]
      have : (a.length : ℚ) ≤ (a'.length : ℚ) := by exact_mod_cast hlen
      nlinarith
    rw [overgen_penalty_eq, overgen_penalty_eq, if_neg he, if_neg he,
      claimPiecewise_eq_clamp, claimPiecewise_eq_clamp]
    exact max_le_max le_rfl (min_le_min le_rfl (by linarith))
  · intro e a he h3
    have hc : (0 : ℚ) < (e.length : ℚ) := by
      exact_mod_cast List.length_pos.mpr he
    have hr : (3 : ℚ) ≤ (a.length : ℚ) / (e.length : ℚ) := by
      rw [le_div_iff hc]
      exact_mod_cast h3
    rw [overgen_penalty_eq, if_neg he, claimPiecewise_eq_clamp]
    exact max_eq_left (le_trans (min_le_right _ _) (by linarith))
  · intro p e he hp h2
    have he1 : 1 ≤ e.length := List.length_pos.mpr he
    have hmax : max e.length 1 = e.length := Nat.max_eq_left he1
    have hover : e.length ≤ p.length - e.length := by omega
    have hc : (0 : ℚ) < (e.length : ℚ) := by exact_mod_cast List.length_pos.mpr he
    have hX : (1 : ℚ) ≤ ((p.length - e.length : ℕ) : ℚ) / (e.length : ℚ) := by
      rw [le_div_iff hc]
      have : (e.length : ℚ) ≤ ((p.length - e.length : ℕ) : ℚ) := by exact_mod_cast hover
      linarith
    have hpen : max (0 : ℚ)
        (1 - ((p.length - e.length : ℕ) : ℚ) / ((max e.length 1 : ℕ) : ℚ)) = 0 := by
      rw [hmax]
      exact max_eq_left (by linarith)
    simp only [calculate_location_metrics, if_neg he, if_neg hp]
    rw [hpen]
    simpa using round1_zero

/-! ## Supporting lemmas for the plurality filter (C5) -/

lemma mem_seenDedup : ∀ (l s : List String) (k : String),
    k ∈ seenDedup s l ↔ (k ∈ l ∧ k ∉ s) := by
  intro l
  induction l with
  | nil => intro s k; simp [seenDedup]
  | cons a t ih =>
      intro s k
      by_cases ha : a ∈ s
      · rw [seenDedup, if_pos ha, ih]
        constructor
        · rintro ⟨h1, h2⟩
          exact ⟨List.mem_cons_of_mem _ h1, h2⟩
        · rintro ⟨h1, h2⟩
          rcases List.mem_cons.mp h1 with rfl | h1
          · exact absurd ha h2
          · exact ⟨h1, h2⟩
      · rw [seenDedup, if_neg ha]
        constructor
        · intro h
          rcases List.mem_cons.mp h with rfl | h
          · exact ⟨List.mem_cons_self _ _, ha⟩
          · obtain ⟨h1, h2⟩ := (ih _ k).mp h
            refine ⟨List.mem_cons_of_mem _ h1, fun hs => h2 (List.mem_cons_of_mem _ hs)⟩
        · rintro ⟨h1, h2⟩
          by_cases hk : k = a
          · subst hk; exact List.mem_cons_self _ _
          · rcases List.mem_cons.mp h1 with rfl | h1
            · exact absurd rfl hk
            · exact List.mem_cons_of_mem _ ((ih _ k).mpr
                ⟨h1, fun hs => (List.mem_cons.mp hs).elim hk h2⟩)

lemma seenDedup_congr : ∀ (l s₁ s₂ : List String),
    (∀ a, a ∈ s₁ ↔ a ∈ s₂) → seenDedup s₁ l = seenDedup s₂ l := by
  intro l
  induction l with
  | nil => intro s₁ s₂ _; rfl
  | cons a t ih =>
      intro s₁ s₂ hs
      by_cases ha : a ∈ s₁
      · rw [seenDedup, if_pos ha, seenDedup, if_pos ((hs a).mp ha)]
        exact ih s₁ s₂ hs
      · rw [seenDedup, if_neg ha, seenDedup, if_neg (fun h => ha ((hs a).mpr h))]
        refine congrArg _ (ih _ _ fun b => ?_)
        simp only [List.mem_cons]
        exact or_congr Iff.rfl (hs b)

lemma firstDedup_eq_nil_iff (l : List String) : firstDedup l = [] ↔ l = [] := by
  cases l with
  | nil => simp [firstDedup, seenDedup]
  | cons a t =>
      simp only [firstDedup, seenDedup, List.not_mem_nil, if_neg]
      constructor
      · intro h; cases h
      · intro h; cases h

lemma mem_firstDedup (l : List String) (k : String) : k ∈ firstDedup l ↔ k ∈ l := by
  rw [firstDedup, mem_seenDedup]
  simp

/-- The table update `bump` either increments an existing entry in place (the keys are
pairwise distinct along every `bump` fold from the empty table) or appends
a new one. -/
lemma bump_spec (acc : List (String × ℕ)) (n : String)
    (hnd : (acc.map Prod.fst).Nodup) :
    bump acc n =
      if n ∈ acc.map Prod.fst then
        acc.map (fun kc => if kc.1 = n then (kc.1, kc.2 + 1) else kc)
      else acc ++ [(n, 1)] := by
  induction acc with
  | nil => simp [bump]
  | cons kc rest ih =>
      obtain ⟨k, c⟩ := kc
      rw [List.map_cons, List.nodup_cons] at hnd
      by_cases hk : k = n
      · subst hk
        rw [bump, if_pos rfl, if_pos (by simp)]
        rw [List.map_cons, if_pos rfl]
        have hrest : rest.map (fun kc => if kc.1 = k then (kc.1, kc.2 + 1) else kc)
            = rest := by
          rw [show rest = rest.map id by simp]
          rw [List.map_map]
          refine List.map_congr_left fun kc' hkc' => ?_
          have hneq : kc'.1 ≠ k := by
            intro h
            have hm := List.mem_map_of_mem Prod.fst hkc'
            rw [h] at hm
            exact hnd.1 hm
          simp [hneq]
        rw [hrest]
      · rw [bump, if_neg hk, ih hnd.2]
        by_cases hmem : n ∈ rest.map Prod.fst
        · rw [if_pos hmem, if_pos (by simp [hmem]), List.map_cons, if_neg hk]
        · have hnot : n ∉ ((k, c) :: rest).map Prod.fst := by
            simp only [List.map_cons, List.mem_cons]
            push_neg
            exact ⟨fun h => hk h.symm, hmem⟩
          rw [if_neg hmem, if_neg hnot, List.cons_append]

/-- Folding `bump` over a name stream (starting from a table with distinct
keys): existing entries gain the stream's occurrence counts, and the fresh
names are appended in first-seen order with their counts. -/
lemma foldl_bump_spec : ∀ (names : List String) (acc : List (String × ℕ)),
    (acc.map Prod.fst).Nodup →
    List.foldl bump acc names =
      acc.map (fun kc => (kc.1, kc.2 + names.count kc.1)) ++
        (seenDedup (acc.map Prod.fst) names).map (fun k => (k, names.count k)) := by
  intro names
  induction names with
  | nil =>
      intro acc _
      simp [seenDedup]
  | cons n rest ih =>
      intro acc hnd
      rw [List.foldl_cons, bump_spec acc n hnd]
      by_cases hmem : n ∈ acc.map Prod.fst
      · rw [if_pos hmem]
        have hkeys : (acc.map (fun kc => if kc.1 = n then (kc.1, kc.2 + 1) else kc)).map
            Prod.fst = acc.map Prod.fst := by
          rw [List.map_map]
          refine List.map_congr_left fun kc _ => ?_
          by_cases hk : kc.1 = n <;> simp [hk]
        rw [ih _ (by rw [hkeys]; exact hnd), hkeys, List.map_map]
        have hsd : seenDedup (acc.map Prod.fst) (n :: rest)
            = seenDedup (acc.map Prod.fst) rest := by
          rw [seenDedup, if_pos hmem]
        rw [hsd]
        congr 1
        · refine List.map_congr_left fun kc _ => ?_
          simp only [Function.comp_apply]
          by_cases hk : kc.1 = n
          · rw [if_pos hk]
            have hcnt : (n :: rest).count kc.1 = rest.count kc.1 + 1 := by
              rw [List.count_cons]
              simp [hk]
            rw [hcnt]
            simp only [Prod.mk.injEq]
            refine ⟨by trivial, by omega⟩
          · rw [if_neg hk]
            have hcnt : (n :: rest).count kc.1 = rest.count kc.1 := by
              rw [List.count_cons]
              simp [hk, Ne.symm hk]
            rw [hcnt]
        · refine List.map_congr_left fun k hk => ?_
          have hk' : k ∉ acc.map Prod.fst := ((mem_seenDedup _ _ _).mp hk).2
          have hkn : k ≠ n := fun h => hk' (h ▸ hmem)
          have hcnt : (n :: rest).count k = rest.count k := by
            rw [List.count_cons]
            simp [hkn, Ne.symm hkn]
          rw [hcnt]
      · rw [if_neg hmem]
        have hkeys : (acc ++ [(n, 1)]).map Prod.fst = acc.map Prod.fst ++ [n] := by simp
        have hnd' : ((acc ++ [(n, 1)]).map Prod.fst).Nodup := by
          rw [hkeys]
          refine List.Nodup.append hnd (List.nodup_singleton n) ?_
          intro a ha hb
          rw [List.mem_singleton] at hb
          subst hb
          exact hmem ha
        rw [ih _ hnd', hkeys]
        have hsd : seenDedup (acc.map Prod.fst) (n :: rest)
            = n :: seenDedup (n :: acc.map Prod.fst) rest := by
          rw [seenDedup, if_neg hmem]
        rw [hsd]
        have hseen : seenDedup (acc.map Prod.fst ++ [n]) rest
            = seenDedup (n :: acc.map Prod.fst) rest := by
          refine seenDedup_congr _ _ _ fun b => ?_
          simp [or_comm]
        rw [List.map_append, hseen, List.append_assoc]
        congr 1
        · refine List.map_congr_left fun kc hkc => ?_
          have hne : kc.1 ≠ n := by
            intro h
            exact hmem (h ▸ List.mem_map_of_mem Prod.fst hkc)
          have hcnt : (n :: rest).count kc.1 = rest.count kc.1 := by
            rw [List.count_cons]
            simp [hne, Ne.symm hne]
          rw [hcnt]
        · simp only [List.map_cons, List.map_nil, List.nil_append, List.singleton_append]
          congr 1
          · have hcnt : (n :: rest).count n = rest.count n + 1 := by
              rw [List.count_cons]
              simp
            rw [hcnt]
            simp only [Prod.mk.injEq]
            refine ⟨by trivial, by omega⟩
          · refine List.map_congr_left fun k hk => ?_
            have hk' : k ∉ n :: acc.map Prod.fst := ((mem_seenDedup _ _ _).mp hk).2
            have hkn : k ≠ n := fun h => hk' (h ▸ List.mem_cons_self _ _)
            have hcnt : (n :: rest).count k = rest.count k := by
              rw [List.count_cons]
              simp [hkn, Ne.symm hkn]
            rw [hcnt]

/-- The collection loop of `_filter_consistent_rag_info` accumulates the
organ-bearing projections and bumps the per-organ counts, in unit order. -/
lemma collectInfo_go : ∀ (units : List EvidenceUnit)
    (acc : List InfoItem × List (String × ℕ)),
    units.foldl
      (fun acc u =>
        match u.o_organ with
        | some o =>
            if o.organName = "" then acc
            else (acc.1 ++ [⟨u.d_diagnosis, o⟩], bump acc.2 o.organName)
        | none => acc)
      acc
    = (acc.1 ++ allInfoItems units, List.foldl bump acc.2 (allOrganNames units)) := by
  intro units
  induction units with
  | nil =>
      intro acc
      simp [allInfoItems, allOrganNames]
  | cons u t ih =>
      intro acc
      rw [List.foldl_cons]
      cases ho : u.o_organ with
      | none =>
          have h1 : allInfoItems (u :: t) = allInfoItems t := by
            simp [allInfoItems, List.filterMap_cons, ho]
          have h2 : allOrganNames (u :: t) = allOrganNames t := by
            simp [allOrganNames, List.filterMap_cons, ho]
          rw [h1, h2]
          simpa [ho] using ih acc
      | some o =>
          by_cases hn : o.organName = ""
          · have h1 : allInfoItems (u :: t) = allInfoItems t := by
              simp [allInfoItems, List.filterMap_cons, ho, hn]
            have h2 : allOrganNames (u :: t) = allOrganNames t := by
              simp [allOrganNames, List.filterMap_cons, ho, hn]
            rw [h1, h2]
            simpa [ho, hn] using ih acc
          · have h1 : allInfoItems (u :: t)
                = (⟨u.d_diagnosis, o⟩ : InfoItem) :: allInfoItems t := by
              simp [allInfoItems, List.filterMap_cons, ho, hn]
            have h2 : allOrganNames (u :: t) = o.organName :: allOrganNames t := by
              simp [allOrganNames, List.filterMap_cons, ho, hn]
            rw [h1, h2]
            have hstep := ih (acc.1 ++ [⟨u.d_diagnosis, o⟩], bump acc.2 o.organName)
            simpa [ho, hn, List.foldl_cons, List.append_assoc] using hstep

/-- Closed form of `collectInfo`. -/
lemma collectInfo_eq (units : List EvidenceUnit) :
    collectInfo units
      = (allInfoItems units,
         (firstDedup (allOrganNames units)).map
           (fun k => (k, (allOrganNames units).count k))) := by
  unfold collectInfo
  rw [collectInfo_go units ([], [])]
  rw [foldl_bump_spec (allOrganNames units) [] (by simp)]
  simp [firstDedup]

/-- Projecting the pair-valued argmax fold to its key component yields the
key-valued argmax fold (for pairs `(k, f k)`). -/
lemma maxFold_map (f : String → ℕ) :
    ∀ (l : List String) (acc : Option String),
      (List.foldl
        (fun best p =>
          match best with
          | none => some p
          | some b => if p.2 > b.2 then some p else some b)
        (acc.map fun k => (k, f k))
        (l.map fun k => (k, f k))).map Prod.fst
      = List.foldl
          (fun best k =>
            match best with
            | none => some k
            | some b => if f k > f b then some k else some b)
          acc l := by
  intro l
  induction l with
  | nil =>
      intro acc
      cases acc <;> simp
  | cons k t ih =>
      intro acc
      rw [List.map_cons, List.foldl_cons, List.foldl_cons]
      cases acc with
      | none =>
          have := ih (some k)
          simpa using this
      | some b =>
          by_cases hgt : f k > f b
          · have := ih (some k)
            simp only [Option.map_some'] at this ⊢
            rw [if_pos hgt, if_pos hgt]
            simpa using this
          · have := ih (some b)
            simp only [Option.map_some'] at this ⊢
            rw [if_neg hgt, if_neg hgt]
            simpa using this

/-- The key-valued argmax fold started at `some b` returns an element
attaining the maximum of `f` over `b` and the list. -/
lemma pickMax_spec (f : String → ℕ) :
    ∀ (l : List String) (b : String),
      ∃ m, List.foldl
          (fun best k =>
            match best with
            | none => some k
            | some b => if f k > f b then some k else some b)
          (some b) l = some m ∧ (m ∈ l ∨ m = b) ∧ f b ≤ f m ∧ ∀ k ∈ l, f k ≤ f m := by
  intro l
  induction l with
  | nil =>
      intro b
      exact ⟨b, rfl, Or.inr rfl, le_refl _, by simp⟩
  | cons k t ih =>
      intro b
      rw [List.foldl_cons]
      by_cases hgt : f k > f b
      · obtain ⟨m, hm, hmem, hle, hall⟩ := ih k
        rw [show (match some b with
            | none => some k
            | some b => if f k > f b then some k else some b) = some k by
          simp [hgt]]
        refine ⟨m, hm, ?_, by omega, ?_⟩
        · rcases hmem with h | rfl
          · exact Or.inl (List.mem_cons_of_mem _ h)
          · exact Or.inl (List.mem_cons_self _ _)
        · intro j hj
          rcases List.mem_cons.mp hj with rfl | hj
          · exact hle
          · exact hall j hj
      · obtain ⟨m, hm, hmem, hle, hall⟩ := ih b
        rw [show (match some b with
            | none => some k
            | some b => if f k > f b then some k else some b) = some b by
          simp [hgt]]
        refine ⟨m, hm, ?_, hle, ?_⟩
        · rcases hmem with h | rfl
          · exact Or.inl (List.mem_cons_of_mem _ h)
          · exact Or.inr rfl
        · intro j hj
          rcases List.mem_cons.mp hj with rfl | hj
          · omega
          · exact hall j hj

/-- The claim-side plurality organ exists on a non-empty name stream, is
one of the names, and attains the maximal occurrence count. -/
lemma claimPlurality_spec (names : List String) (h : names ≠ []) :
    ∃ p, claimPlurality names = some p ∧ p ∈ names ∧
      ∀ m ∈ names, names.count m ≤ names.count p := by
  obtain ⟨a, l', hfd⟩ : ∃ a l', firstDedup names = a :: l' := by
    rcases hd : firstDedup names with _ | ⟨a, l'⟩
    · exact absurd ((firstDedup_eq_nil_iff names).mp hd) h
    · exact ⟨a, l', rfl⟩
  unfold claimPlurality
  rw [hfd, List.foldl_cons]
  obtain ⟨m, hm, hmem, hle, hall⟩ := pickMax_spec (fun k => names.count k) l' a
  refine ⟨m, by simpa using hm, ?_, ?_⟩
  · rcases hmem with hml | rfl
    · have : m ∈ firstDedup names := by
        rw [hfd]
        exact List.mem_cons_of_mem _ hml
      exact (mem_firstDedup names m).mp this
    · have : m ∈ firstDedup names := by
        rw [hfd]
        exact List.mem_cons_self _ _
      exact (mem_firstDedup names m).mp this
  · intro j hj
    have hj' : j ∈ firstDedup names := (mem_firstDedup names j).mpr hj
    rw [hfd] at hj'
    rcases List.mem_cons.mp hj' with rfl | hj'
    · exact hle
    · exact hall j hj'

/-- Every collected info item carries one of the collected organ names. -/
lemma mem_allInfoItems_name {units : List EvidenceUnit} {info : InfoItem}
    (h : info ∈ allInfoItems units) :
    info.organ.organName ∈ allOrganNames units := by
  unfold allInfoItems at h
  obtain ⟨u, hu, hf⟩ := List.mem_filterMap.mp h
  apply List.mem_filterMap.mpr
  refine ⟨u, hu, ?_⟩
  cases ho : u.o_organ with
  | none =>
      rw [ho] at hf
      simp at hf
  | some o =>
      rw [ho] at hf
      by_cases hn : o.organName = ""
      · simp [hn] at hf
      · rw [Option.some_bind, if_neg hn] at hf
        simp only [Option.some.injEq] at hf
        rw [Option.some_bind, if_neg hn]
        rw [← hf]

/-! ## Claim C5 -/

/-- C5 as stated is false: with exactly one distinct organ among the units
the filter does NOT return the input list unchanged — units without an
organ annotation are dropped (here 2 units in, 1 item out). -/
theorem C5_counterexample :
    (allOrganNames unitsHeartAndNone).dedup.length = 1 ∧
    (filter_consistent_rag_info unitsHeartAndNone).length ≠ unitsHeartAndNone.length := by
  constructor
  · decide
  · decide

/-- C5 amended: units lacking an organ annotation (or with an empty organ
name) are always dropped; among the organ-bearing projections the filter
keeps exactly those whose organ equals the plurality organ — the name with
the highest occurrence count, ties broken by first-seen order (so with one
distinct organ every organ-bearing unit survives); with no organ-bearing
unit the result is empty. -/
theorem C5_plurality_filter (units : List EvidenceUnit) :
    (allOrganNames units = [] → filter_consistent_rag_info units = []) ∧
    (allOrganNames units ≠ [] →
      ∃ p : String,
        claimPlurality (allOrganNames units) = some p ∧
        p ∈ allOrganNames units ∧
        (∀ m ∈ allOrganNames units,
          (allOrganNames units).count m ≤ (allOrganNames units).count p) ∧
        filter_consistent_rag_info units =
          (allInfoItems units).filter fun info => info.organ.organName = p) := by
  have hci := collectInfo_eq units
  constructor
  · intro hnil
    unfold filter_consistent_rag_info
    rw [hci]
    simp [hnil, firstDedup, seenDedup]
  · intro hne
    obtain ⟨p, hp, hpm, hmax⟩ := claimPlurality_spec (allOrganNames units) hne
    refine ⟨p, hp, hpm, hmax, ?_⟩
    unfold filter_consistent_rag_info
    rw [hci]
    dsimp only
    have hfdne : firstDedup (allOrganNames units) ≠ [] := fun hcon =>
      hne ((firstDedup_eq_nil_iff _).mp hcon)
    have hcne : ((firstDedup (allOrganNames units)).map
        fun k => (k, (allOrganNames units).count k)) ≠ [] := by
      intro hcon
      exact hfdne (List.map_eq_nil.mp hcon)
    rw [if_neg hcne]
    have hmck : maxCountKey ((firstDedup (allOrganNames units)).map
        fun k => (k, (allOrganNames units).count k)) = some p := by
      unfold maxCountKey
      have hmm := maxFold_map (fun k => (allOrganNames units).count k)
        (firstDedup (allOrganNames units)) none
      simp only [Option.map_none'] at hmm
      rw [hmm]
      unfold claimPlurality at hp
      exact hp
    rw [hmck]
    dsimp only
    by_cases hone : ((firstDedup (allOrganNames units)).map
        fun k => (k, (allOrganNames units).count k)).length = 1
    · rw [if_pos hone]
      symm
      refine List.filter_eq_self.mpr fun info hinfo => ?_
      have hnm : info.organ.organName ∈ allOrganNames units := mem_allInfoItems_name hinfo
      obtain ⟨k, hk⟩ : ∃ k, firstDedup (allOrganNames units) = [k] := by
        rw [List.length_map] at hone
        exact List.length_eq_one.mp hone
      have h1 : info.organ.organName = k := by
        have hmem := (mem_firstDedup (allOrganNames units) _).mpr hnm
        rw [hk] at hmem
        simpa using hmem
      have h2 : p = k := by
        have hmem := (mem_firstDedup (allOrganNames units) p).mpr hpm
        rw [hk] at hmem
        simpa using hmem
      rw [h1, h2]
      simp
    · rw [if_neg hone]

/-- Witness for C5's amended statement on a single "Heart" unit. -/
theorem C5_plurality_filter_witness :
    ∃ p : String,
      claimPlurality (allOrganNames unitsOneHeart) = some p ∧
      p ∈ allOrganNames unitsOneHeart ∧
      (∀ m ∈ allOrganNames unitsOneHeart,
        (allOrganNames unitsOneHeart).count m ≤ (allOrganNames unitsOneHeart).count p) ∧
      filter_consistent_rag_info unitsOneHeart =
        (allInfoItems unitsOneHeart).filter fun info => info.organ.organName = p :=
  (C5_plurality_filter unitsOneHeart).2 (by decide)

/-! ## Claim C1 -/

/-- C1 as stated is false: the analyzer has a fifth exclusion condition.
`sampleMissingMetrics` satisfies none of the claim's four degeneracy
conditions, yet `is_api_call_valid` rejects it ("metrics数据缺失"). -/
theorem C1_counterexample :
    (is_api_call_valid sampleMissingMetrics).1 = false ∧
    ¬ claimDegenerateFour sampleMissingMetrics := by
  constructor
  · decide
  · unfold claimDegenerateFour sampleMissingMetrics metricsScore
    simp only [not_or]
    refine ⟨by simp, by simp, by simp, ?_, by simp⟩
    intro hcon
    norm_num at hcon

/-- C1 amended: a sample is excluded iff one of FIVE degeneracy conditions
holds — the claim's four, or a missing/empty metrics dict on either side —
and an excluded sample is appended to the invalid-report list while
leaving every score list, delta list and valid-report list untouched (so
it cannot shift any mean, count or ratio, all of which are computed from
those lists). -/
theorem C1_validity_gate :
    (∀ d : ApiData, ((is_api_call_valid d).1 = false ↔ claimDegenerateFive d)) ∧
    (∀ (s : ApiScores) (d : ApiData) (report_id : String),
      (is_api_call_valid d).1 = false →
      ((process_api_scores s d report_id).baseline_scores = s.baseline_scores ∧
       (process_api_scores s d report_id).rag_scores = s.rag_scores ∧
       (process_api_scores s d report_id).improvements = s.improvements ∧
       (process_api_scores s d report_id).declines = s.declines ∧
       (process_api_scores s d report_id).no_change = s.no_change ∧
       (process_api_scores s d report_id).valid_reports = s.valid_reports) ∧
      (process_api_scores s d report_id).invalid_reports =
        s.invalid_reports ++ [report_id]) := by
  constructor
  · intro d
    unfold is_api_call_valid claimDegenerateFive claimDegenerateFour
    split_ifs with h1 h2 h3 h4 h5 <;> simp_all <;> tauto
  · intro s d report_id hinv
    unfold process_api_scores
    simp only [hinv, if_pos]
    split_ifs <;> simp

/-- Witness for C1's amended statement on the degenerate sample
`sampleEmptyOrgan` folded into the empty accumulator. -/
theorem C1_validity_gate_witness :
    ((is_api_call_valid sampleEmptyOrgan).1 = false ↔ claimDegenerateFive sampleEmptyOrgan) ∧
    (process_api_scores ApiScores.init sampleEmptyOrgan "diagnostic_4000").baseline_scores =
      ApiScores.init.baseline_scores ∧
    (process_api_scores ApiScores.init sampleEmptyOrgan "diagnostic_4000").invalid_reports =
      ApiScores.init.invalid_reports ++ ["diagnostic_4000"] :=
  ⟨C1_validity_gate.1 sampleEmptyOrgan,
   ((C1_validity_gate.2 ApiScores.init sampleEmptyOrgan "diagnostic_4000" (by decide)).1).1,
   (C1_validity_gate.2 ApiScores.init sampleEmptyOrgan "diagnostic_4000" (by decide)).2⟩

/-! ## Claim C8 -/

lemma maxByStat_mem (f : ApiStats → ℚ) :
    ∀ (l : List (String × ApiStats)) (acc : Option (String × ApiStats))
      (x : String × ApiStats),
      l.foldl
        (fun best p =>
          match best with
          | none => some p
          | some b => if f p.2 > f b.2 then some p else some b)
        acc = some x →
      x ∈ l ∨ acc = some x := by
  intro l
  induction l with
  | nil =>
      intro acc x h
      exact Or.inr h
  | cons a t ih =>
      intro acc x h
      rw [List.foldl_cons] at h
      rcases ih _ x h with hmem | hacc
      · exact Or.inl (List.mem_cons_of_mem _ hmem)
      · cases acc with
        | none =>
            simp only [Option.some.injEq] at hacc
            exact Or.inl (hacc ▸ List.mem_cons_self a t)
        | some b =>
            dsimp only at hacc
            by_cases hgt : f a.2 > f b.2
            · rw [if_pos hgt] at hacc
              simp only [Option.some.injEq] at hacc
              exact Or.inl (hacc ▸ List.mem_cons_self a t)
            · rw [if_neg hgt] at hacc
              exact Or.inr hacc

/-- C8 as stated is false: an API with zero valid samples is skipped
entirely by `calculate_statistics` (it yields no statistics record at all,
hence no zeroed ratios and no `has_no_valid_data` flag — no such field
exists). -/
theorem C8_counterexample :
    calculate_statistics ApiScores.init = none ∧
    calcAllStats [("moonshot", ApiScores.init)] = [] := by
  constructor
  · simp [calculate_statistics, ApiScores.init]
  · simp [calcAllStats, calculate_statistics, ApiScores.init]

/-- C8 amended: an API with zero valid samples is omitted from the
statistics map altogether (no division is attempted), and each cross-API
rollup — best-improving, worst-declining, most-stable — ranges only over
APIs that contributed at least one valid sample. -/
theorem C8_no_valid_data :
    (∀ s : ApiScores, (calculate_statistics s = none ↔ s.baseline_scores = [])) ∧
    (∀ (data : List (String × ApiScores)) (x : String × ApiStats),
      best_improvement_api data = some x →
      ∃ sc : ApiScores, (x.1, sc) ∈ data ∧ sc.baseline_scores ≠ []) ∧
    (∀ (data : List (String × ApiScores)) (x : String × ApiStats),
      worst_decline_api data = some x →
      ∃ sc : ApiScores, (x.1, sc) ∈ data ∧ sc.baseline_scores ≠ []) ∧
    (∀ (data : List (String × ApiScores)) (x : String × ApiStats),
      most_stable_api data = some x →
      ∃ sc : ApiScores, (x.1, sc) ∈ data ∧ sc.baseline_scores ≠ []) := by
  have hstats : ∀ s : ApiScores, calculate_statistics s = none ↔ s.baseline_scores = [] := by
    intro s
    unfold calculate_statistics
    split_ifs with h
    · simp [h]
    · simp [h]
  have hroll : ∀ (f : ApiStats → ℚ) (data : List (String × ApiScores))
      (x : String × ApiStats),
      maxByStat f (calcAllStats data) = some x →
      ∃ sc : ApiScores, (x.1, sc) ∈ data ∧ sc.baseline_scores ≠ [] := by
    intro f data x h
    have hx : x ∈ calcAllStats data := by
      rcases maxByStat_mem f (calcAllStats data) none x h with hm | habs
      · exact hm
      · cases habs
    obtain ⟨p, hp, hps⟩ := List.mem_filterMap.mp hx
    rcases hopt : calculate_statistics p.2 with _ | st
    · rw [hopt] at hps
      simp at hps
    · rw [hopt] at hps
      simp only [Option.map_some', Option.some.injEq] at hps
      refine ⟨p.2, ?_, ?_⟩
      · rw [← hps]
        exact hp
      · intro hnil
        rw [(hstats p.2).mpr hnil] at hopt
        cases hopt
  exact ⟨hstats, fun data x h => hroll _ data x h, fun data x h => hroll _ data x h,
    fun data x h => hroll _ data x h⟩

/-- Witness for C8's amended statement on a one-API map holding one valid
sample. -/
theorem C8_no_valid_data_witness :
    ∃ sc : ApiScores, (("openai", sc) ∈ [("openai", scoresOneValid)]) ∧
      sc.baseline_scores ≠ [] :=
  C8_no_valid_data.2.1 [("openai", scoresOneValid)] ("openai", statsOneValid) (by
    simp [best_improvement_api, calcAllStats, calculate_statistics, maxByStat,
      scoresOneValid, statsOneValid, round2, List.dedup]
    norm_num)

/-! ## Claim C7 -/

/-- C7: the comparator's deltas are plain subtractions of the two sides'
metric fields, each side's F1 is the (percent-scaled, rounded) harmonic
mean of its raw precision and recall, `organ_accuracy_improved` holds
exactly when the augmented class is `exact_match` and the baseline class
is not, and the report's three-way classification is improved/declined/
unchanged exactly by the sign of the overall delta. -/
theorem C7_delta_comparator :
    (∀ (baseline_organ rag_organ : String)
        (baseline_locations rag_locations : List String)
        (expected_results : List ExpectedResult),
      let c := compare_responses baseline_organ rag_organ baseline_locations
        rag_locations expected_results
      c.precision_improvement = c.rag_metrics.precision - c.baseline_metrics.precision ∧
      c.recall_improvement = c.rag_metrics.recall_pct - c.baseline_metrics.recall_pct ∧
      c.f1_improvement = c.rag_metrics.f1_score - c.baseline_metrics.f1_score ∧
      c.overall_improvement = c.rag_metrics.overall_score - c.baseline_metrics.overall_score ∧
      (c.organ_accuracy_improved = true ↔
        (c.rag_organ_accuracy.category = "exact_match" ∧
          c.baseline_organ_accuracy.category ≠ "exact_match"))) ∧
    (∀ p e : List String,
      (calculate_location_metrics p e).f1_score =
        round1 (100 * harmonicF1 (rawPrecision p e) (rawRecall p e))) ∧
    (∀ x : ℚ,
      (classify_effect x = "improved" ↔ x > 0) ∧
      (classify_effect x = "declined" ↔ x < 0) ∧
      (classify_effect x = "unchanged" ↔ x = 0)) := by
  refine ⟨?_, ?_, ?_⟩
  · intro baseline_organ rag_organ baseline_locations rag_locations expected_results
    refine ⟨rfl, rfl, rfl, rfl, ?_⟩
    simp [compare_responses]
  · intro p e
    by_cases he : e = []
    · simp [calculate_location_metrics, rawPrecision, rawRecall, harmonicF1, he, round1_zero]
    · by_cases hp : p = []
      · simp [calculate_location_metrics, rawPrecision, rawRecall, harmonicF1, he, hp,
          round1_zero]
      · simp only [calculate_location_metrics, rawPrecision, rawRecall, harmonicF1, he, hp,
          or_self, if_false, false_or, or_false]
        congr 1
        ring
  · intro x
    unfold classify_effect
    by_cases h1 : x > 0
    · rw [if_pos h1]
      exact ⟨iff_of_true rfl h1,
        iff_of_false (by decide) (by linarith),
        iff_of_false (by decide) (by linarith)⟩
    · by_cases h2 : x < 0
      · rw [if_neg h1, if_pos h2]
        exact ⟨iff_of_false (by decide) h1, iff_of_true rfl h2,
          iff_of_false (by decide) (by linarith)⟩
      · rw [if_neg h1, if_neg h2]
        have hx : x = 0 := le_antisymm (not_lt.mp h1) (not_lt.mp h2)
        exact ⟨iff_of_false (by decide) h1, iff_of_false (by decide) h2,
          iff_of_true rfl hx⟩

/-! ## Claim C4 -/

lemma foldl_add_map_sum (f : EvidenceUnit → ℚ) :
    ∀ (l : List EvidenceUnit) (init : ℚ),
      l.foldl (fun q u => q + f u) init = init + (l.map f).sum := by
  intro l
  induction l with
  | nil => intro init; simp
  | cons a t ih =>
      intro init
      simp only [List.foldl_cons, List.map_cons, List.sum_cons, ih]
      ring

lemma unitQuality_eq_claimIncrement (u : EvidenceUnit) : unitQuality u = claimIncrement u := by
  cases h : u.o_organ with
  | none => simp [unitQuality, claimIncrement, h]
  | some o =>
      by_cases hl : o.anatomicalLocations = [] <;>
        simp [unitQuality, claimIncrement, h, hl] <;> ring

/-- C4: the trust score of `_evaluate_rag_quality` is exactly the claimed
formula — 0 on no evidence (with the no-evidence rationale), otherwise the
per-unit quality increments averaged over all units, minus 0.4 on organ
disagreement and a further 0.2 on more than five distinct locations,
clamped to `[0, 1]`. -/
theorem C4_trust_score :
    (∀ units : List EvidenceUnit,
      (evaluate_rag_quality units).1 = claimTrustScore units) ∧
    (evaluate_rag_quality []).2 = "无检索结果" := by
  refine ⟨?_, rfl⟩
  intro units
  by_cases h : units = []
  · simp [evaluate_rag_quality, claimTrustScore, h]
  · have hmap : units.map unitQuality = units.map claimIncrement :=
      List.map_congr_left fun u _ => unitQuality_eq_claimIncrement u
    simp only [evaluate_rag_quality, claimTrustScore, h, if_false]
    rw [foldl_add_map_sum, zero_add, hmap, min_comm]

/-! ## Claim C3 -/

lemma precision_bounds (a e : List String) :
    0 ≤ calculate_precision a e ∧ calculate_precision a e ≤ 1 := by
  unfold calculate_precision
  by_cases ha : a = []
  · simp [ha]
  · rw [if_neg ha]
    have hpos : (0 : ℚ) < (a.length : ℚ) := by
      exact_mod_cast List.length_pos.mpr ha
    constructor
    · positivity
    · rw [div_le_one hpos]
      exact_mod_cast List.length_filter_le _ a

lemma recall_bounds (a e : List String) (hnd : a.Nodup) :
    0 ≤ calculate_recall a e ∧ calculate_recall a e ≤ 1 := by
  unfold calculate_recall
  by_cases he : e = []
  · simp [he]
  · rw [if_neg he]
    have hpos : (0 : ℚ) < (e.length : ℚ) := by
      exact_mod_cast List.length_pos.mpr he
    constructor
    · positivity
    · rw [div_le_one hpos]
      have hsub : a.filter (fun loc => loc ∈ e) ⊆ e := by
        intro y hy
        have := List.of_mem_filter hy
        simpa using this
      have hle := (List.Nodup.subperm (hnd.filter _) hsub).length_le
      exact_mod_cast hle

lemma penalty_bounds (a e : List String) :
    0 ≤ calculate_overgeneration_penalty a e ∧ calculate_overgeneration_penalty a e ≤ 1 := by
  rw [overgen_penalty_eq]
  by_cases he : e = []
  · simp [he]
  · rw [if_neg he]
    exact claimPiecewise_bounds _

/-- C3 as stated is false: the record returned by
`evaluate_single_response` carries percent-scaled components, so already on
the exact match `(["Liver"], ["Liver"])` the returned precision is 100,
not within `[0, 1]`. -/
theorem C3_counterexample :
    (evaluate_single_core ["Liver"] ["Liver"]).precision = 100 ∧
    ¬ ((evaluate_single_core ["Liver"] ["Liver"]).precision ≤ 1) := by
  have h : (evaluate_single_core ["Liver"] ["Liver"]).precision = 100 := by
    simp [evaluate_single_core, calculate_precision, List.dedup, round1]
    norm_num
  refine ⟨h, ?_⟩
  rw [h]
  norm_num

/-- C3 amended: the internal (unscaled) precision and over-generation
penalty always lie in `[0, 1]`; if the predicted list has no duplicates the
internal recall also lies in `[0, 1]` and every field of the returned
record — which reports the three components multiplied by 100 — lies in
`[0, 100]`, as does the overall score.  (With a duplicated predicted
location the recall can exceed 1, see the C9 analysis.) -/
theorem C3_score_bounds :
    (∀ a e : List String, 0 ≤ calculate_precision a e ∧ calculate_precision a e ≤ 1) ∧
    (∀ a e : List String,
      0 ≤ calculate_overgeneration_penalty a e ∧ calculate_overgeneration_penalty a e ≤ 1) ∧
    (∀ a e : List String, a.Nodup → 0 ≤ calculate_recall a e ∧ calculate_recall a e ≤ 1) ∧
    (∀ a e : List String, a.Nodup →
      (0 ≤ (evaluate_single_core a e).precision ∧ (evaluate_single_core a e).precision ≤ 100) ∧
      (0 ≤ (evaluate_single_core a e).recall_score ∧
        (evaluate_single_core a e).recall_score ≤ 100) ∧
      (0 ≤ (evaluate_single_core a e).overgeneration_penalty ∧
        (evaluate_single_core a e).overgeneration_penalty ≤ 100) ∧
      (0 ≤ (evaluate_single_core a e).overall_score ∧
        (evaluate_single_core a e).overall_score ≤ 100)) := by
  refine ⟨precision_bounds, penalty_bounds, fun a e hnd => recall_bounds a e hnd, ?_⟩
  intro a e hnd
  by_cases h : e.dedup = [] ∨ a = []
  · have h' : e = [] ∨ a = [] := by simpa using h
    simp [evaluate_single_core, h']
  · have hp := precision_bounds a e.dedup
    have hr := recall_bounds a e.dedup hnd
    have hpen := penalty_bounds a e.dedup
    simp only [evaluate_single_core, h, if_false]
    refine ⟨round1_bounds (by linarith [hp.1]) (by linarith [hp.2]),
      round1_bounds (by linarith [hr.1]) (by linarith [hr.2]),
      round1_bounds (by linarith [hpen.1]) (by linarith [hpen.2]),
      round1_bounds (by nlinarith [hp.1, hr.1, hpen.1]) ?_⟩
    nlinarith [hp.2, hr.2, hpen.2, hp.1, hr.1, hpen.1]

/-- Witness for C3's amended statement at the duplicate-free prediction
`["a"]` against ground truth `["a", "b"]`. -/
theorem C3_score_bounds_witness :
    0 ≤ calculate_recall ["a"] ["a", "b"] ∧ calculate_recall ["a"] ["a", "b"] ≤ 1 ∧
    0 ≤ (evaluate_single_core ["a"] ["a", "b"]).overall_score ∧
    (evaluate_single_core ["a"] ["a", "b"]).overall_score ≤ 100 :=
  ⟨(C3_score_bounds.2.2.1 ["a"] ["a", "b"] (by decide)).1,
   (C3_score_bounds.2.2.1 ["a"] ["a", "b"] (by decide)).2,
   (C3_score_bounds.2.2.2 ["a"] ["a", "b"] (by decide)).2.2.2.1,
   (C3_score_bounds.2.2.2 ["a"] ["a", "b"] (by decide)).2.2.2.2⟩

/-! ## Claim C9 -/

/-- C9 as stated is false for the predicted side: the evaluator
deduplicates only the expected list, so appending a duplicate predicted
location changes the reported recall (here from 50 to 100). -/
theorem C9_counterexample :
    (evaluate_single_core (["a"] ++ ["a"]) ["a", "b"]).recall_score ≠
      (evaluate_single_core ["a"] ["a", "b"]).recall_score := by
  have h1 : (evaluate_single_core (["a"] ++ ["a"]) ["a", "b"]).recall_score = 100 := by
    simp [evaluate_single_core, calculate_recall, List.dedup, round1]
    norm_num
  have h2 : (evaluate_single_core ["a"] ["a", "b"]).recall_score = 50 := by
    simp [evaluate_single_core, calculate_recall, List.dedup, round1]
    norm_num
  rw [h1, h2]
  norm_num

/-- C9 amended: duplicates in the *expected* list are indeed harmless —
appending a location already present leaves the whole evaluation record
unchanged — but the predicted list is not deduplicated, and a duplicated
predicted location can change recall, penalty and overall score (see the
counterexample). -/
theorem C9_expected_dedup (actual expectedRaw : List String) (x : String)
    (hx : x ∈ expectedRaw) :
    evaluate_single_core actual (expectedRaw ++ [x]) =
      evaluate_single_core actual expectedRaw := by
  have hmem : ∀ y : String, y ∈ (expectedRaw ++ [x]).dedup ↔ y ∈ expectedRaw.dedup := by
    intro y
    simp only [List.mem_dedup, List.mem_append, List.mem_singleton]
    constructor
    · rintro (h | rfl)
      · exact h
      · exact hx
    · exact Or.inl
  have hlen : (expectedRaw ++ [x]).dedup.length = expectedRaw.dedup.length := by
    rw [← List.card_toFinset, ← List.card_toFinset]
    congr 1
    ext y
    simp only [List.mem_toFinset]
    simpa [List.mem_dedup] using hmem y
  have hne1 : (expectedRaw ++ [x]).dedup ≠ [] := by
    have hxm : x ∈ (expectedRaw ++ [x]).dedup := by simp [List.mem_dedup]
    intro hcon
    rw [hcon] at hxm
    simp at hxm
  have hne2 : expectedRaw.dedup ≠ [] := by
    have hxm : x ∈ expectedRaw.dedup := by simp [List.mem_dedup, hx]
    intro hcon
    rw [hcon] at hxm
    simp at hxm
  have hfil : actual.filter (fun loc => loc ∈ (expectedRaw ++ [x]).dedup)
      = actual.filter (fun loc => loc ∈ expectedRaw.dedup) := by
    apply List.filter_congr
    intro y _
    simp only [decide_eq_decide]
    exact hmem y
  have hprec : calculate_precision actual ((expectedRaw ++ [x]).dedup)
      = calculate_precision actual expectedRaw.dedup := by
    unfold calculate_precision
    rw [hfil]
  have hrec : calculate_recall actual ((expectedRaw ++ [x]).dedup)
      = calculate_recall actual expectedRaw.dedup := by
    unfold calculate_recall
    rw [if_neg hne1, if_neg hne2, hfil, hlen]
  have hpen : calculate_overgeneration_penalty actual ((expectedRaw ++ [x]).dedup)
      = calculate_overgeneration_penalty actual expectedRaw.dedup := by
    unfold calculate_overgeneration_penalty
    rw [if_neg hne1, if_neg hne2, hlen]
  have hcond : ((expectedRaw ++ [x]).dedup = [] ∨ actual = [])
      ↔ (expectedRaw.dedup = [] ∨ actual = []) := by
    simp [hne1, hne2]
  simp only [evaluate_single_core, hprec, hrec, hpen]
  exact if_congr hcond rfl rfl

/-- Witness for C9's amended statement: appending the duplicate `"a"` to
the expected list `["a", "b"]` leaves the evaluation of prediction `["q"]`
unchanged. -/
theorem C9_expected_dedup_witness :
    evaluate_single_core ["q"] (["a", "b"] ++ ["a"]) =
      evaluate_single_core ["q"] ["a", "b"] :=
  C9_expected_dedup ["q"] ["a", "b"] "a" (by decide)

/-- Witness for C2's amended statement at concrete inputs: monotonicity
from predicted size 1 to 3 over one expected location, vanishing at triple
over-generation, and the rerun penalty vanishing already at double
over-generation. -/
theorem C2_overgeneration_policy_witness :
    calculate_overgeneration_penalty ["x", "y", "z"] ["a"] ≤
      calculate_overgeneration_penalty ["x"] ["a"] ∧
    calculate_overgeneration_penalty ["x", "y", "z"] ["a"] = 0 ∧
    (calculate_location_metrics ["x", "y"] ["a"]).overgeneration_penalty = 0 :=
  ⟨C2_overgeneration_policy.2.1 ["a"] ["x"] ["x", "y", "z"] (by decide) (by decide),
   C2_overgeneration_policy.2.2.1 ["a"] ["x", "y", "z"] (by decide) (by decide),
   C2_overgeneration_policy.2.2.2 ["x", "y"] ["a"] (by decide) (by decide) (by decide)⟩
example : round1 (755/10) = 755/10 := by norm_num [round1]
example :
    (evaluate_single_core ["Aortic Valve"] ["Aortic Valve", "Left Ventricle (LV)"]).overall_score
      = 80 := by
  simp [evaluate_single_core, calculate_precision, calculate_recall,
    calculate_overgeneration_penalty, round1, List.dedup]
  norm_num
example :
    (evaluate_single_core ["Aortic Valve", "Left Ventricle (LV)"]
      ["Aortic Valve", "Left Ventricle (LV)"]).overall_score = 100 := by
  simp [evaluate_single_core, calculate_precision, calculate_recall,
    calculate_overgeneration_penalty, round1, List.dedup]
  norm_num

end RAGEval
